import Mathlib

/-! The socket of the discovery layer, `ableton::discovery::Socket`.

A shallow embedding of `include/ableton/discovery/Socket.hpp`: the shared socket
state `Socket::Impl`, the `Socket` handle with `send`, `receive` and `endpoint`,
and the two configuration routines `configureMulticastSocket` and
`configureUnicastSocket`.

The C++ code mutates objects behind a `std::shared_ptr` and talks to an asio
datagram socket.  Here the objects live in an explicit heap (`World.heap`), every
call made on an asio socket and every invocation of the registered handler is
appended to `World.trace`, and the answers of the operating system (whether a call
is refused, which port a bind to port 0 receives, how many bytes a send reports)
are read from a `Platform` value the definitions are parameterised by.
-/

namespace ableton.discovery

/-! ## Values -/

/-- A `uint8_t`; the code only moves bytes around, it never computes with them. -/
abbrev Byte := Nat

/-- A UDP port number. -/
abbrev Port := Nat

/-- The address of an object on the heap. -/
abbrev Ref := Nat

/-- `Buffer::const_iterator`: a position in the receive buffer, counted from its
first byte. -/
abbrev ByteIt := Nat

/-- `asio::ip::address_v4`, given by its value in host byte order. -/
structure address_v4 where
  to_ulong : Nat
deriving DecidableEq

/-- `address_v4::is_loopback`: the address lies in 127.0.0.0/8
(`(to_ulong() & 0xFF000000) == 0x7F000000`). -/
def address_v4.is_loopback (a : address_v4) : Bool :=
  a.to_ulong &&& 0xFF000000 == 0x7F000000

/-- `asio::ip::address`: an IPv4 or an IPv6 address. -/
inductive address where
  | v4 (a : address_v4)
  | v6 (a : Nat)
deriving DecidableEq

/-- What a C++ exception carries, as far as this development tells them apart. -/
inductive Exception where
  | system_error (code : Nat)
  | bad_cast
  | bad_function_call
  | user (tag : Nat)
deriving DecidableEq

/-- `address::to_v4`: the IPv4 address held, `std::bad_cast` for an IPv6 one. -/
def address.to_v4 : address → Except Exception address_v4
  | .v4 a => .ok a
  | .v6 _ => .error .bad_cast

/-- The value of `asio::ip::address::from_string("0.0.0.0")`: the IPv4 wildcard. -/
def address.any : address := .v4 ⟨0⟩

/-- `asio::ip::udp::endpoint`: an address and a port. -/
structure endpoint where
  address : address
  port : Port
deriving DecidableEq

/-- `asio::error_code`; the value 0 means success. -/
structure error_code where
  value : Nat
deriving DecidableEq

/-- The conversion of an `error_code` to `bool`: true when an error is set. -/
def error_code.isSet (e : error_code) : Bool := e.value != 0

/-- `std::weak_ptr<Impl>`: the address it observes, if any.  It does not keep the
object alive. -/
structure weak_ptr where
  target : Option Ref
deriving DecidableEq

/-- `std::shared_ptr<Impl>`: null, or the address of the object it owns. -/
structure shared_ptr where
  get : Option Ref
deriving DecidableEq

/-- Modelled from the spec: `util::SafeAsyncHandler<Impl>`, declared in
`ableton/util/SafeAsyncHandler.hpp`, which is not part of the sources at hand.  The
spec (4.2) says it "holds a weak (non-owning) reference to the Shared Socket
State, established at the moment `receive` is issued". -/
structure SafeAsyncHandler where
  mpDelegate : weak_ptr
deriving DecidableEq

/-- Modelled from the spec: `util::makeAsyncSafe`, the weak observer of the object
a shared pointer owns. -/
def makeAsyncSafe (p : shared_ptr) : SafeAsyncHandler := ⟨⟨p.get⟩⟩

/-! ## The asio socket -/

/-- The socket options the code sets. -/
inductive SocketOption where
  | reuse_address (value : Bool)
  | broadcast (value : Bool)
  | enable_loopback (value : Bool)
  | outbound_interface (a : address_v4)
  | join_group (group : address_v4) (iface : address_v4)
deriving DecidableEq

/-- The calls the code makes on an `asio::ip::udp::socket`. -/
inductive SocketCall where
  | open_v4
  | set_option (o : SocketOption)
  | bind (ep : endpoint)
  | send_to (data : List Byte) (dest : endpoint)
  | async_receive_from (buffer : Ref) (capacity : Nat) (sender : Ref)
      (handler : SafeAsyncHandler)
  | shutdown_both
  | close
deriving DecidableEq

/-- The observable state of an `asio::ip::udp::socket`: the value of each option,
the groups joined (group, interface) and the endpoint it was bound to. -/
structure udp_socket where
  reuse_address : Bool
  broadcast : Bool
  enable_loopback : Bool
  outbound_interface : Option address_v4
  groups : List (address_v4 × address_v4)
  bound : Option endpoint
deriving DecidableEq

/-- The effect of an accepted `set_option` on the socket state. -/
def udp_socket.apply (s : udp_socket) : SocketOption → udp_socket
  | .reuse_address v => { s with reuse_address := v }
  | .broadcast v => { s with broadcast := v }
  | .enable_loopback v => { s with enable_loopback := v }
  | .outbound_interface a => { s with outbound_interface := some a }
  | .join_group g i => { s with groups := s.groups ++ [(g, i)] }

/-- The effect of an accepted `bind` on the socket state. -/
def udp_socket.bindTo (s : udp_socket) (ep : endpoint) : udp_socket :=
  { s with bound := some ep }

/-! ## The shared state -/

/-- `std::array<uint8_t, MaxPacketSize>`: exactly `MaxPacketSize` bytes. -/
structure Buffer (MaxPacketSize : Nat) where
  data : List Byte
  size_eq : data.length = MaxPacketSize

/-- `begin(buffer)`: the position of the first byte. -/
def Buffer.begin {MaxPacketSize : Nat} (_b : Buffer MaxPacketSize) : ByteIt := 0

/-- The bytes of the iterator range `[first, last)`. -/
def Buffer.range {MaxPacketSize : Nat} (b : Buffer MaxPacketSize) (first last : ByteIt) :
    List Byte :=
  (b.data.drop first).take (last - first)

/-- `std::function<void(const endpoint&, ByteIt, ByteIt)>` over callables of type
`H`: empty, or holding a target. -/
inductive std_function (H : Type) where
  | empty
  | target (h : H)
deriving DecidableEq

/-- `Socket<MaxPacketSize>::Impl`: the members of the shared socket state. -/
structure Impl (MaxPacketSize : Nat) (H : Type) where
  mSocket : udp_socket
  mSenderEndpoint : endpoint
  mReceiveBuffer : Buffer MaxPacketSize
  mHandler : std_function H

/-- What the program does that the outside can see, in order. -/
inductive Effect (H : Type) where
  /-- a call on the `mSocket` member of the object at `owner` -/
  | socket (owner : Ref) (c : SocketCall)
  /-- the call `mHandler(sender, first, last)`, `f` being the value of `mHandler` -/
  | invoke (f : std_function H) (sender : endpoint) (first last : ByteIt)
deriving DecidableEq

/-- The heap of shared states (`none`: no live object at that address), the next
unused address and the trace of effects so far. -/
structure World (MaxPacketSize : Nat) (H : Type) where
  heap : Ref → Option (Impl MaxPacketSize H)
  next : Ref
  trace : List (Effect H)

/-- Why a run did not return. -/
inductive Stop where
  | exception (e : Exception)
  | assertion_failed
  | null_dereference
deriving DecidableEq

/-- How a run ended. -/
inductive Outcome (α : Type) where
  | returned (a : α)
  | stopped (why : Stop)
deriving DecidableEq

/-- A computation on a state `σ` that returns or stops; the state reached is kept
in both cases, as a C++ exception leaves the writes made before it in place. -/
def Exec (σ α : Type) := σ → Outcome α × σ

/-- Return without touching the state. -/
def Exec.pure {σ α : Type} (a : α) : Exec σ α := fun s => (.returned a, s)

/-- Run `m`, then `f` on its result; a stop of `m` ends the run. -/
def Exec.bind {σ α β : Type} (m : Exec σ α) (f : α → Exec σ β) : Exec σ β := fun s =>
  match m s with
  | (.returned a, s1) => f a s1
  | (.stopped why, s1) => (.stopped why, s1)

instance {σ : Type} : Monad (Exec σ) where
  pure := Exec.pure
  bind := Exec.bind

/-- Stop the run. -/
def Exec.stop {σ α : Type} (why : Stop) : Exec σ α := fun s => (.stopped why, s)

/-- The answers of the world outside the code: the operating system under the
asio socket, and the bodies of the handlers the client registers. -/
structure Platform (MaxPacketSize : Nat) (H : Type) where
  /-- the error with which a call on a socket in the given state is refused -/
  refuses : udp_socket → SocketCall → Option Nat
  /-- the state of a newly opened IPv4 datagram socket -/
  opened : udp_socket
  /-- the content of a receive buffer nobody has written yet -/
  uninitialized : Buffer MaxPacketSize
  /-- the port given to a socket that was bound to port 0 -/
  ephemeral_port : Port
  /-- the byte count an accepted `send_to` reports -/
  sent : udp_socket → List Byte → endpoint → Nat
  /-- what the call `f(sender, first, last)` does; for an empty `std::function` that
  is raising `bad_function_call` -/
  run_handler : std_function H → endpoint → ByteIt → ByteIt →
    Exec (World MaxPacketSize H) Unit

variable {MaxPacketSize : Nat} {H : Type}

/-- Append an effect to the trace. -/
def World.log (w : World MaxPacketSize H) (e : Effect H) : World MaxPacketSize H :=
  { w with trace := w.trace ++ [e] }

/-- Write the object at address `r`. -/
def World.store (w : World MaxPacketSize H) (r : Ref) (i : Impl MaxPacketSize H) :
    World MaxPacketSize H :=
  { w with heap := Function.update w.heap r (some i) }

/-- Remove the object at address `r`. -/
def World.free (w : World MaxPacketSize H) (r : Ref) : World MaxPacketSize H :=
  { w with heap := Function.update w.heap r none }

/-- `p->`: the address and the object a shared pointer refers to.  Going through
a null pointer is undefined behaviour, and stops the run. -/
def shared_ptr.deref (p : shared_ptr) : Exec (World MaxPacketSize H) (Ref × Impl MaxPacketSize H) :=
  fun w =>
    match p.get with
    | none => (.stopped .null_dereference, w)
    | some r =>
      match w.heap r with
      | none => (.stopped .null_dereference, w)
      | some i => (.returned (r, i), w)

/-- `weak_ptr::lock`: the address observed when the object there is still alive. -/
def weak_ptr.lock (p : weak_ptr) (w : World MaxPacketSize H) : Option Ref :=
  match p.target with
  | none => none
  | some r => if (w.heap r).isSome then some r else none

/-! ## Calls on the asio socket, made through the shared pointer -/

/-- A call `p->mSocket.c(...)` that the platform may refuse: it is recorded, and
either raises `system_error` or changes the socket state by `effect`. -/
def socket_call (os : Platform MaxPacketSize H) (p : shared_ptr) (c : SocketCall)
    (effect : udp_socket → udp_socket) : Exec (World MaxPacketSize H) Unit := fun w =>
  match p.deref w with
  | (.stopped why, w1) => (.stopped why, w1)
  | (.returned (r, i), w1) =>
    let w2 := w1.log (.socket r c)
    match os.refuses i.mSocket c with
    | some code => (.stopped (.exception (.system_error code)), w2)
    | none => (.returned (), w2.store r { i with mSocket := effect i.mSocket })

/-- The call `p->mSocket.set_option(o)`. -/
def udp_socket.set_option (os : Platform MaxPacketSize H) (p : shared_ptr) (o : SocketOption) :
    Exec (World MaxPacketSize H) Unit :=
  socket_call os p (.set_option o) (fun s => s.apply o)

/-- The call `p->mSocket.bind(ep)`. -/
def udp_socket.bind (os : Platform MaxPacketSize H) (p : shared_ptr) (ep : endpoint) :
    Exec (World MaxPacketSize H) Unit :=
  socket_call os p (.bind ep) (fun s => s.bindTo ep)

/-- The call `p->mSocket.send_to(data, dest)`: one synchronous send, answering the
byte count the platform reports. -/
def udp_socket.send_to (os : Platform MaxPacketSize H) (p : shared_ptr) (data : List Byte)
    (dest : endpoint) : Exec (World MaxPacketSize H) Nat := fun w =>
  match p.deref w with
  | (.stopped why, w1) => (.stopped why, w1)
  | (.returned (r, i), w1) =>
    let w2 := w1.log (.socket r (.send_to data dest))
    match os.refuses i.mSocket (.send_to data dest) with
    | some code => (.stopped (.exception (.system_error code)), w2)
    | none => (.returned (os.sent i.mSocket data dest), w2)

/-- The call `p->mSocket.async_receive_from(buffer, sender, handler)`: the read
request is handed to the reactor and the call returns; errors of the read are
reported to the handler later, not raised here. -/
def udp_socket.async_receive_from (p : shared_ptr) (buffer : Ref) (capacity : Nat) (sender : Ref)
    (handler : SafeAsyncHandler) : Exec (World MaxPacketSize H) Unit := fun w =>
  match p.deref w with
  | (.stopped why, w1) => (.stopped why, w1)
  | (.returned (r, _), w1) =>
    (.returned (), w1.log (.socket r (.async_receive_from buffer capacity sender handler)))

/-- The value of `s.local_endpoint()` on an open socket: the wildcard and port 0
while unbound, else the address bound to, with the port the platform chose when
port 0 was asked for. -/
def udp_socket.local_endpoint (os : Platform MaxPacketSize H) (s : udp_socket) : endpoint :=
  match s.bound with
  | none => ⟨address.any, 0⟩
  | some ep => ⟨ep.address, if ep.port = 0 then os.ephemeral_port else ep.port⟩

/-! ## Socket::Impl -/

/-- `Impl::operator()(error, numBytes)`, run on the object at address `this`.
A `std::array` never has more than `PTRDIFF_MAX` elements, so the cast of
`numBytes` to `ptrdiff_t` under the guard `numBytes <= MaxPacketSize` keeps its
value. -/
def Impl.call (os : Platform MaxPacketSize H) (this : Ref) (error : error_code)
    (numBytes : Nat) : Exec (World MaxPacketSize H) Unit := fun w =>
  match w.heap this with
  | none => (.stopped .null_dereference, w)
  | some self =>
    if !error.isSet && decide (numBytes > 0) && decide (numBytes ≤ MaxPacketSize) then
      let bufBegin := self.mReceiveBuffer.begin
      os.run_handler self.mHandler self.mSenderEndpoint bufBegin (bufBegin + numBytes)
        (w.log (.invoke self.mHandler self.mSenderEndpoint bufBegin (bufBegin + numBytes)))
    else
      (.returned (), w)

/-- `Impl::~Impl`, run on the object at address `this`: `shutdown` and `close` are
called with an `error_code` out-parameter that is ignored, then the object is
gone. -/
def Impl.destroy (this : Ref) : Exec (World MaxPacketSize H) Unit := fun w =>
  match w.heap this with
  | none => (.stopped .null_dereference, w)
  | some _ =>
    (.returned (), (((w.log (.socket this .shutdown_both)).log (.socket this .close)).free this))

/-- Modelled from the spec: `SafeAsyncHandler::operator()`, declared in
`ableton/util/SafeAsyncHandler.hpp`, which is not part of the sources at hand.
Spec 4.2: "If the weak reference cannot be resolved (state destroyed), do nothing";
else control is forwarded to the completion logic of the state. -/
def SafeAsyncHandler.call (os : Platform MaxPacketSize H) (self : SafeAsyncHandler)
    (error : error_code) (numBytes : Nat) : Exec (World MaxPacketSize H) Unit := fun w =>
  match self.mpDelegate.lock w with
  | none => (.returned (), w)
  | some r => Impl.call os r error numBytes w

/-! ## The Socket handle -/

/-- `Socket<MaxPacketSize>`: the handle, holding the shared pointer `mpImpl`. -/
structure Socket where
  mpImpl : shared_ptr
deriving DecidableEq

/-- The `assert` macro with assertions enabled. -/
def assert {σ : Type} (c : Bool) : Exec σ Unit :=
  if c then Exec.pure () else Exec.stop .assertion_failed

/-- `Socket::send(pData, numBytes, to)`; `pData` stands for the bytes found at the
pointer, of which `asio::buffer(pData, numBytes)` covers the first `numBytes`. -/
def Socket.send (os : Platform MaxPacketSize H) (self : Socket) (pData : List Byte)
    (numBytes : Nat) (dest : endpoint) : Exec (World MaxPacketSize H) Nat := do
  assert (decide (numBytes < MaxPacketSize))
  udp_socket.send_to os self.mpImpl (pData.take numBytes) dest

/-- The assignment `p->mHandler = std::move(handler)`. -/
def set_mHandler (p : shared_ptr) (handler : H) : Exec (World MaxPacketSize H) Unit := fun w =>
  match p.deref w with
  | (.stopped why, w1) => (.stopped why, w1)
  | (.returned (r, i), w1) => (.returned (), w1.store r { i with mHandler := .target handler })

/-- `Socket::receive(handler)`. -/
def Socket.receive (self : Socket) (handler : H) : Exec (World MaxPacketSize H) Unit := do
  set_mHandler self.mpImpl handler
  let (r, _) ← self.mpImpl.deref
  udp_socket.async_receive_from self.mpImpl r MaxPacketSize r (makeAsyncSafe self.mpImpl)

/-- `Socket::endpoint()`. -/
def Socket.endpoint (os : Platform MaxPacketSize H) (self : Socket) :
    Exec (World MaxPacketSize H) endpoint := do
  let (_, i) ← self.mpImpl.deref
  pure (i.mSocket.local_endpoint os)

/-! ## Configuration -/

/-- Turn the answer of a conversion into a run: an error is raised. -/
def raise {σ α : Type} : Except Exception α → Exec σ α
  | .ok a => Exec.pure a
  | .error e => Exec.stop (.exception e)

/-- `configureMulticastSocket(socket, addr, multicastEndpoint)`. -/
def configureMulticastSocket (os : Platform MaxPacketSize H) (socket : Socket)
    (addr : address_v4) (multicastEndpoint : endpoint) : Exec (World MaxPacketSize H) Unit := do
  udp_socket.set_option os socket.mpImpl (.reuse_address true)
  udp_socket.set_option os socket.mpImpl (.broadcast (!addr.is_loopback))
  udp_socket.set_option os socket.mpImpl (.enable_loopback addr.is_loopback)
  udp_socket.set_option os socket.mpImpl (.outbound_interface addr)
  udp_socket.bind os socket.mpImpl ⟨address.any, multicastEndpoint.port⟩
  let group ← raise multicastEndpoint.address.to_v4
  udp_socket.set_option os socket.mpImpl (.join_group group addr)

/-- `configureUnicastSocket(socket, addr)`. -/
def configureUnicastSocket (os : Platform MaxPacketSize H) (socket : Socket)
    (addr : address_v4) : Exec (World MaxPacketSize H) Unit := do
  udp_socket.set_option os socket.mpImpl (.enable_loopback addr.is_loopback)
  udp_socket.set_option os socket.mpImpl (.outbound_interface addr)
  udp_socket.bind os socket.mpImpl ⟨.v4 addr, 0⟩

/-! ## The reactor and the network, as the claims describe them -/

/-- The buffer after the reactor has copied a datagram into it: the payload, cut
to the capacity, replaces the first bytes. -/
def Buffer.write (b : Buffer MaxPacketSize) (payload : List Byte) : Buffer MaxPacketSize :=
  ⟨payload.take MaxPacketSize ++ b.data.drop (payload.take MaxPacketSize).length, by
    simp only [List.length_append, List.length_drop, List.length_take, b.size_eq]
    omega⟩

/-- The completion of a pending read request `async_receive_from(buffer, sender,
handler)` by a datagram `payload` sent from `source`: the reactor copies the
payload to the start of the receive buffer, stores the source in the sender slot,
and calls the completion target with no error and the number of bytes copied.
When the object that holds buffer and slot is gone, nothing is copied. -/
def arrive (os : Platform MaxPacketSize H) (buffer : Ref) (handler : SafeAsyncHandler)
    (payload : List Byte) (source : endpoint) : Exec (World MaxPacketSize H) Unit := fun w =>
  match w.heap buffer with
  | none => handler.call os ⟨0⟩ (payload.take MaxPacketSize).length w
  | some i =>
    handler.call os ⟨0⟩ (payload.take MaxPacketSize).length
      (w.store buffer
        { i with mReceiveBuffer := i.mReceiveBuffer.write payload, mSenderEndpoint := source })

/-- The round trip of claim C3: the peer issues `receive(handler)`, the sender
sends `p` to the endpoint of the peer, and the datagram completes the read the
peer has pending, with the endpoint of the sender as its source. -/
def roundTrip (os : Platform MaxPacketSize H) (sender peer : Socket) (handler : H)
    (p : List Byte) : Exec (World MaxPacketSize H) Unit := do
  peer.receive handler
  let dest ← peer.endpoint os
  let source ← sender.endpoint os
  let _ ← sender.send os p p.length dest
  let (r, _) ← peer.mpImpl.deref
  arrive os r (makeAsyncSafe peer.mpImpl) p source

/-- The socket state after an accepted call. -/
def udp_socket.after (s : udp_socket) : SocketCall → udp_socket
  | .set_option o => s.apply o
  | .bind ep => s.bindTo ep
  | _ => s

/-- The reading of "these operations, in this order, and a failing step ends the
run": perform the calls one after the other on `p->mSocket`. -/
def perform (os : Platform MaxPacketSize H) (p : shared_ptr) :
    List SocketCall → Exec (World MaxPacketSize H) Unit
  | [] => Exec.pure ()
  | c :: cs => Exec.bind (socket_call os p c (fun s => s.after c)) (fun _ => perform os p cs)

/-- The five operations claim C10 lists before the join, in its order. -/
def multicastSetup (addr : address_v4) (multicastEndpoint : endpoint) : List SocketCall :=
  [ .set_option (.reuse_address true),
    .set_option (.broadcast (!addr.is_loopback)),
    .set_option (.enable_loopback addr.is_loopback),
    .set_option (.outbound_interface addr),
    .bind ⟨address.any, multicastEndpoint.port⟩ ]

/-- The six operations claim C10 lists, in its order; the sixth, the join, exists
when the group address has an IPv4 form. -/
def multicastSteps (addr : address_v4) (multicastEndpoint : endpoint) : List SocketCall :=
  multicastSetup addr multicastEndpoint ++
    match multicastEndpoint.address.to_v4 with
    | .ok group => [.set_option (.join_group group addr)]
    | .error _ => []

/-- The three operations claim C6 lists, in its order. -/
def unicastSteps (addr : address_v4) : List SocketCall :=
  [ .set_option (.enable_loopback addr.is_loopback),
    .set_option (.outbound_interface addr),
    .bind ⟨.v4 addr, 0⟩ ]

/-! ## Concrete values used to evaluate the definitions -/

namespace Example

/-- A platform that refuses nothing, reports every byte as sent, hands out port
49152 and whose handlers return at once. -/
def os : Platform 4 Nat where
  refuses := fun _ _ => none
  opened := ⟨false, false, true, none, [], none⟩
  uninitialized := ⟨[0, 0, 0, 0], rfl⟩
  ephemeral_port := 49152
  sent := fun _ data _ => data.length
  run_handler := fun _ _ _ _ => Exec.pure ()

/-- 192.168.1.7. -/
def lan : address_v4 := ⟨0xC0A80107⟩

/-- 224.76.78.75:20808, the multicast endpoint of the discovery protocol. -/
def group : endpoint := ⟨.v4 ⟨0xE04C4E4B⟩, 20808⟩

/-- A shared state holding the datagram 7, 8, 9 from 192.168.1.7:5000, with handler
11 registered. -/
def impl : Impl 4 Nat where
  mSocket := ⟨false, false, true, none, [], none⟩
  mSenderEndpoint := ⟨.v4 lan, 5000⟩
  mReceiveBuffer := ⟨[7, 8, 9, 0], rfl⟩
  mHandler := .target 11

/-- A second shared state, bound to 192.168.1.7:5000, without a handler. -/
def impl2 : Impl 4 Nat where
  mSocket := ⟨false, false, true, none, [], some ⟨.v4 lan, 5000⟩⟩
  mSenderEndpoint := ⟨address.any, 0⟩
  mReceiveBuffer := ⟨[0, 0, 0, 0], rfl⟩
  mHandler := .empty

/-- A third shared state, bound to 192.168.1.7:6000, without a handler. -/
def impl3 : Impl 4 Nat where
  mSocket := ⟨false, false, true, none, [], some ⟨.v4 lan, 6000⟩⟩
  mSenderEndpoint := ⟨address.any, 0⟩
  mReceiveBuffer := ⟨[0, 0, 0, 0], rfl⟩
  mHandler := .empty

/-- A world with `impl` at address 0, `impl2` at address 1 and `impl3` at
address 2. -/
def world : World 4 Nat where
  heap := fun r =>
    if r = 0 then some impl else if r = 1 then some impl2 else if r = 2 then some impl3
    else none
  next := 3
  trace := []

/-- The world before any socket was made. -/
def empty : World 4 Nat where
  heap := fun _ => none
  next := 0
  trace := []

/-- The handle of the state at address 0. -/
def handle : Socket := ⟨⟨some 0⟩⟩

/-- The handle of the state at address 1. -/
def handle2 : Socket := ⟨⟨some 1⟩⟩

/-- The handle of the state at address 2. -/
def handle3 : Socket := ⟨⟨some 2⟩⟩

end Example

/-! ## Basic facts about the heap and the primitive calls -/

@[simp] theorem World.log_heap (w : World MaxPacketSize H) (e : Effect H) :
    (w.log e).heap = w.heap := rfl

@[simp] theorem World.log_next (w : World MaxPacketSize H) (e : Effect H) :
    (w.log e).next = w.next := rfl

@[simp] theorem World.log_trace (w : World MaxPacketSize H) (e : Effect H) :
    (w.log e).trace = w.trace ++ [e] := rfl

@[simp] theorem World.store_heap_same (w : World MaxPacketSize H) (r : Ref)
    (i : Impl MaxPacketSize H) : (w.store r i).heap r = some i := by
  simp [World.store]

theorem World.store_heap_other (w : World MaxPacketSize H) (r r2 : Ref)
    (i : Impl MaxPacketSize H) (h : r2 ≠ r) : (w.store r i).heap r2 = w.heap r2 := by
  simp [World.store, Function.update_noteq h]

@[simp] theorem World.store_next (w : World MaxPacketSize H) (r : Ref)
    (i : Impl MaxPacketSize H) : (w.store r i).next = w.next := rfl

@[simp] theorem World.store_trace (w : World MaxPacketSize H) (r : Ref)
    (i : Impl MaxPacketSize H) : (w.store r i).trace = w.trace := rfl

theorem shared_ptr.deref_live (p : shared_ptr) (w : World MaxPacketSize H) (r : Ref)
    (i : Impl MaxPacketSize H) (hp : p.get = some r) (hlive : w.heap r = some i) :
    p.deref w = (.returned (r, i), w) := by
  simp [shared_ptr.deref, hp, hlive]

theorem Exec.bind_returned {σ α β : Type} (m : Exec σ α) (f : α → Exec σ β) (s s1 : σ) (a : α)
    (h : m s = (.returned a, s1)) : (m >>= f) s = f a s1 := by
  show Exec.bind m f s = f a s1
  simp [Exec.bind, h]

theorem Exec.bind_unit_pure {σ : Type} (m : Exec σ Unit) :
    Exec.bind m (fun _ => Exec.pure ()) = m := by
  funext s
  simp only [Exec.bind]
  rcases h : m s with ⟨o, s1⟩
  cases o <;> simp [Exec.pure]

theorem Exec.bind_assoc {σ α β γ : Type} (m : Exec σ α) (f : α → Exec σ β)
    (g : β → Exec σ γ) :
    Exec.bind (Exec.bind m f) g = Exec.bind m (fun a => Exec.bind (f a) g) := by
  funext s
  simp only [Exec.bind]
  rcases h : m s with ⟨o, s1⟩
  cases o <;> simp

theorem Exec.pure_bind {σ α β : Type} (a : α) (f : α → Exec σ β) :
    Exec.bind (Exec.pure a) f = f a := rfl

theorem socket_call_accepted (os : Platform MaxPacketSize H) (p : shared_ptr) (c : SocketCall)
    (effect : udp_socket → udp_socket) (w : World MaxPacketSize H) (r : Ref)
    (i : Impl MaxPacketSize H) (hp : p.get = some r) (hlive : w.heap r = some i)
    (hacc : os.refuses i.mSocket c = none) :
    socket_call os p c effect w =
      (.returned (), (w.log (.socket r c)).store r { i with mSocket := effect i.mSocket }) := by
  simp [socket_call, shared_ptr.deref_live p w r i hp hlive, hacc]

theorem socket_call_refused (os : Platform MaxPacketSize H) (p : shared_ptr) (c : SocketCall)
    (effect : udp_socket → udp_socket) (w : World MaxPacketSize H) (r : Ref)
    (i : Impl MaxPacketSize H) (code : Nat) (hp : p.get = some r) (hlive : w.heap r = some i)
    (href : os.refuses i.mSocket c = some code) :
    socket_call os p c effect w =
      (.stopped (.exception (.system_error code)), w.log (.socket r c)) := by
  simp [socket_call, shared_ptr.deref_live p w r i hp hlive, href]

theorem Impl_call_run (os : Platform MaxPacketSize H)
    (w : World MaxPacketSize H) (this : Ref) (self : Impl MaxPacketSize H)
    (error : error_code) (numBytes : Nat)
    (hlive : w.heap this = some self) (herr : error.isSet = false)
    (hpos : 0 < numBytes) (hle : numBytes ≤ MaxPacketSize) :
    Impl.call os this error numBytes w =
      os.run_handler self.mHandler self.mSenderEndpoint
        self.mReceiveBuffer.begin (self.mReceiveBuffer.begin + numBytes)
        (w.log (.invoke self.mHandler self.mSenderEndpoint
          self.mReceiveBuffer.begin (self.mReceiveBuffer.begin + numBytes))) := by
  simp [Impl.call, hlive, herr, hpos, hle]

theorem Socket_receive_run (self : Socket) (handler : H)
    (w : World MaxPacketSize H) (r : Ref) (i : Impl MaxPacketSize H)
    (hp : self.mpImpl.get = some r) (hlive : w.heap r = some i) :
    self.receive handler w =
      (.returned (),
        (w.store r { i with mHandler := .target handler }).log
          (.socket r (.async_receive_from r MaxPacketSize r (makeAsyncSafe self.mpImpl)))) := by
  have h1 : set_mHandler self.mpImpl handler w =
      (.returned (), w.store r { i with mHandler := .target handler }) := by
    simp [set_mHandler, shared_ptr.deref_live self.mpImpl w r i hp hlive]
  have h2 : self.mpImpl.deref (w.store r { i with mHandler := .target handler }) =
      (.returned (r, { i with mHandler := .target handler }),
        w.store r { i with mHandler := .target handler }) :=
    shared_ptr.deref_live _ _ r _ hp (World.store_heap_same _ _ _)
  show Exec.bind _ _ w = _
  simp only [Exec.bind, h1]
  show Exec.bind _ _ _ = _
  simp only [Exec.bind, h2, udp_socket.async_receive_from]

theorem Socket_endpoint_run (os : Platform MaxPacketSize H) (self : Socket)
    (w : World MaxPacketSize H) (r : Ref) (i : Impl MaxPacketSize H)
    (hp : self.mpImpl.get = some r) (hlive : w.heap r = some i) :
    self.endpoint os w = (.returned (i.mSocket.local_endpoint os), w) := by
  show Exec.bind _ _ w = _
  simp [Exec.bind, shared_ptr.deref_live self.mpImpl w r i hp hlive, Pure.pure, Exec.pure]

theorem Socket_send_run (os : Platform MaxPacketSize H) (self : Socket)
    (w : World MaxPacketSize H) (r : Ref) (i : Impl MaxPacketSize H)
    (pData : List Byte) (numBytes : Nat) (dest : endpoint)
    (hp : self.mpImpl.get = some r) (hlive : w.heap r = some i)
    (hn : numBytes < MaxPacketSize)
    (hacc : os.refuses i.mSocket (.send_to (pData.take numBytes) dest) = none) :
    self.send os pData numBytes dest w =
      (.returned (os.sent i.mSocket (pData.take numBytes) dest),
        w.log (.socket r (.send_to (pData.take numBytes) dest))) := by
  show Exec.bind _ _ w = _
  simp [Exec.bind, assert, Exec.pure, hn, udp_socket.send_to,
    shared_ptr.deref_live self.mpImpl w r i hp hlive, hacc]

theorem Buffer.write_range (b : Buffer MaxPacketSize) (p : List Byte)
    (hp : p.length ≤ MaxPacketSize) : (b.write p).range 0 p.length = p := by
  simp [Buffer.write, Buffer.range, List.take_of_length_le hp]

/-- What a run of `perform` does: it records a prefix of the calls, in order; it
returns after recording all of them, and it stops with the error of the last one
recorded, which the platform refused in the socket state reached by then. -/
theorem perform_run (os : Platform MaxPacketSize H) (p : shared_ptr) (r : Ref)
    (hp : p.get = some r) :
    ∀ (cs : List SocketCall) (w : World MaxPacketSize H) (i : Impl MaxPacketSize H),
      w.heap r = some i →
      ∃ (k : Nat) (s2 : udp_socket), k ≤ cs.length
        ∧ (perform os p cs w).2.trace = w.trace ++ (cs.take k).map (Effect.socket r)
        ∧ (perform os p cs w).2.heap r = some { i with mSocket := s2 }
        ∧ (((perform os p cs w).1 = .returned () ∧ k = cs.length
              ∧ s2 = cs.foldl udp_socket.after i.mSocket)
          ∨ (∃ (code : Nat) (c : SocketCall),
              (perform os p cs w).1 = .stopped (.exception (.system_error code))
              ∧ 0 < k ∧ cs.get? (k - 1) = some c
              ∧ s2 = (cs.take (k - 1)).foldl udp_socket.after i.mSocket
              ∧ os.refuses s2 c = some code)) := by
  intro cs
  induction cs with
  | nil =>
    intro w i hlive
    exact ⟨0, i.mSocket, Nat.le_refl _, by simp [perform, Exec.pure],
      by simp [perform, Exec.pure, hlive], Or.inl ⟨rfl, rfl, rfl⟩⟩
  | cons c cs ih =>
    intro w i hlive
    cases href : os.refuses i.mSocket c with
    | some code =>
      have hrun : perform os p (c :: cs) w =
          (.stopped (.exception (.system_error code)), w.log (.socket r c)) := by
        simp only [perform, Exec.bind,
          socket_call_refused os p c _ w r i code hp hlive href]
      refine ⟨1, i.mSocket, by simp, ?_, ?_, Or.inr ⟨code, c, ?_, by decide, by simp, by simp, href⟩⟩
      · rw [hrun]; simp
      · rw [hrun]; simp [hlive]
      · rw [hrun]
    | none =>
      have hrun : perform os p (c :: cs) w =
          perform os p cs
            ((w.log (.socket r c)).store r { i with mSocket := i.mSocket.after c }) := by
        simp only [perform, Exec.bind,
          socket_call_accepted os p c _ w r i hp hlive href]
      obtain ⟨k, s2, hk, htrace, hheap, hout⟩ :=
        ih ((w.log (.socket r c)).store r { i with mSocket := i.mSocket.after c })
          { i with mSocket := i.mSocket.after c } (World.store_heap_same _ _ _)
      refine ⟨k + 1, s2, by simpa using hk, ?_, ?_, ?_⟩
      · rw [hrun, htrace]; simp
      · rw [hrun, hheap]
      · rcases hout with ⟨h1, h2, h3⟩ | ⟨code, c2, h1, h2, h3, h4, h5⟩
        · exact Or.inl ⟨by rw [hrun]; exact h1, by simp [h2], by simpa using h3⟩
        · refine Or.inr ⟨code, c2, by rw [hrun]; exact h1, Nat.succ_pos _, ?_, ?_, h5⟩
          · obtain ⟨j, rfl⟩ : ∃ j, k = j + 1 := ⟨k - 1, by omega⟩
            simpa using h3
          · obtain ⟨j, rfl⟩ : ∃ j, k = j + 1 := ⟨k - 1, by omega⟩
            simpa using h4

theorem configureUnicastSocket_eq_perform (os : Platform MaxPacketSize H) (socket : Socket)
    (addr : address_v4) :
    configureUnicastSocket os socket addr = perform os socket.mpImpl (unicastSteps addr) := by
  show Exec.bind _ (fun _ => Exec.bind _ (fun _ => _)) = _
  simp only [unicastSteps, perform, Exec.bind_unit_pure]
  rfl

theorem configureMulticastSocket_eq_perform (os : Platform MaxPacketSize H) (socket : Socket)
    (addr : address_v4) (multicastEndpoint : endpoint) (group : address_v4)
    (hv4 : multicastEndpoint.address = .v4 group) :
    configureMulticastSocket os socket addr multicastEndpoint =
      perform os socket.mpImpl (multicastSteps addr multicastEndpoint) := by
  show Exec.bind _ (fun _ => Exec.bind _ (fun _ => Exec.bind _ (fun _ => Exec.bind _
    (fun _ => Exec.bind _ (fun _ => Exec.bind _ (fun _ => _)))))) = _
  simp only [multicastSteps, multicastSetup, hv4, address.to_v4, List.cons_append,
    List.nil_append, perform, Exec.bind_unit_pure]
  rfl

theorem configureMulticastSocket_eq_perform_v6 (os : Platform MaxPacketSize H) (socket : Socket)
    (addr : address_v4) (multicastEndpoint : endpoint) (a : Nat)
    (hv6 : multicastEndpoint.address = .v6 a) :
    configureMulticastSocket os socket addr multicastEndpoint =
      Exec.bind (perform os socket.mpImpl (multicastSteps addr multicastEndpoint))
        (fun _ => Exec.stop (.exception .bad_cast)) := by
  show Exec.bind _ (fun _ => Exec.bind _ (fun _ => Exec.bind _ (fun _ => Exec.bind _
    (fun _ => Exec.bind _ (fun _ => Exec.bind _ (fun _ => _)))))) = _
  simp only [multicastSteps, multicastSetup, hv6, address.to_v4, List.append_nil,
    perform, Exec.bind_assoc, Exec.pure_bind, raise]
  rfl

/-! ## The completion logic: `Impl::operator()` -/

/-- C1: for a live state and a completion with no error and
`0 < numBytes <= MaxPacketSize`, `operator()` is one call of `mHandler` (a single
`invoke` is recorded, then the body of the handler runs) with the current
`mSenderEndpoint` and the iterator range `[begin, begin + numBytes)`; that range
holds exactly the first `numBytes` bytes of the receive buffer, has length
`numBytes` and ends inside the `MaxPacketSize` bytes of the buffer. -/
theorem Impl_call_invokes_handler_once (os : Platform MaxPacketSize H)
    (w : World MaxPacketSize H) (this : Ref) (self : Impl MaxPacketSize H)
    (error : error_code) (numBytes : Nat)
    (hlive : w.heap this = some self) (herr : error.isSet = false)
    (hpos : 0 < numBytes) (hle : numBytes ≤ MaxPacketSize) :
    Impl.call os this error numBytes w =
        os.run_handler self.mHandler self.mSenderEndpoint
          self.mReceiveBuffer.begin (self.mReceiveBuffer.begin + numBytes)
          (w.log (.invoke self.mHandler self.mSenderEndpoint
            self.mReceiveBuffer.begin (self.mReceiveBuffer.begin + numBytes)))
      ∧ self.mReceiveBuffer.begin = 0
      ∧ self.mReceiveBuffer.range self.mReceiveBuffer.begin
          (self.mReceiveBuffer.begin + numBytes) = self.mReceiveBuffer.data.take numBytes
      ∧ (self.mReceiveBuffer.range self.mReceiveBuffer.begin
          (self.mReceiveBuffer.begin + numBytes)).length = numBytes
      ∧ self.mReceiveBuffer.begin + numBytes ≤ self.mReceiveBuffer.data.length
      ∧ self.mReceiveBuffer.data.length = MaxPacketSize := by
  have hsize := self.mReceiveBuffer.size_eq
  refine ⟨?_, rfl, ?_, ?_, ?_, hsize⟩
  · exact Impl_call_run os w this self error numBytes hlive herr hpos hle
  · simp [Buffer.range, Buffer.begin]
  · simp [Buffer.range, Buffer.begin, hsize, hle]
  · simp [Buffer.begin, hsize, hle]

/-- Witness of C1: the state at address 0 of `Example.world` and the completion
`(success, 3)`. -/
theorem Impl_call_invokes_handler_once_witness :
    (Impl.call Example.os 0 ⟨0⟩ 3 Example.world).2.trace
        = [.invoke (.target 11) ⟨.v4 Example.lan, 5000⟩ 0 3]
      ∧ Example.impl.mReceiveBuffer.range 0 3 = [7, 8, 9] := by
  have h := Impl_call_invokes_handler_once Example.os Example.world 0 Example.impl ⟨0⟩ 3
    rfl rfl (by decide) (by decide)
  refine ⟨?_, by decide⟩
  rw [h.1]
  rfl

/-- C2: for a live state and a completion whose error is set, or whose byte count
is 0, or whose byte count exceeds `MaxPacketSize`, `operator()` returns normally
and leaves the whole world as it was: no handler call and no read request is
added to the trace, nothing is raised, and handler, receive buffer and sender
endpoint keep their values. -/
theorem Impl_call_drops (os : Platform MaxPacketSize H)
    (w : World MaxPacketSize H) (this : Ref) (self : Impl MaxPacketSize H)
    (error : error_code) (numBytes : Nat)
    (hlive : w.heap this = some self)
    (hbad : error.isSet = true ∨ numBytes = 0 ∨ MaxPacketSize < numBytes) :
    Impl.call os this error numBytes w = (.returned (), w) := by
  rcases hbad with h | h | h
  · simp [Impl.call, hlive, h]
  · simp [Impl.call, hlive, h]
  · simp [Impl.call, hlive, Nat.not_le.mpr h]

/-- Witness of C2: a byte count of 5 on a 4-byte buffer. -/
theorem Impl_call_drops_witness :
    Impl.call Example.os 0 ⟨0⟩ 5 Example.world = (.returned (), Example.world) :=
  Impl_call_drops Example.os Example.world 0 Example.impl ⟨0⟩ 5 rfl
    (Or.inr (Or.inr (by decide)))

/-! ## The round trip -/

/-- C3 fails as stated: the empty payload satisfies `len(p) < MaxPacketSize` and
`send` accepts it, but its completion carries the byte count 0, which
`Impl::operator()` drops; the handler of the peer is never called.  Here the
socket bound to 192.168.1.7:5000 sends the empty payload to the peer bound to
192.168.1.7:6000, which has issued `receive(12)`. -/
theorem roundTrip_empty_payload_not_delivered :
    ([] : List Byte).length < 4
      ∧ (roundTrip Example.os Example.handle2 Example.handle3 12 [] Example.world).1
          = .returned ()
      ∧ (roundTrip Example.os Example.handle2 Example.handle3 12 [] Example.world).2.trace
          = [ .socket 2 (.async_receive_from 2 4 2 ⟨⟨some 2⟩⟩),
              .socket 1 (.send_to [] ⟨.v4 Example.lan, 6000⟩) ]
      ∧ ¬ (∃ (sender : endpoint) (first last : ByteIt),
            Effect.invoke (.target 12) sender first last ∈
              (roundTrip Example.os Example.handle2 Example.handle3 12 []
                Example.world).2.trace) := by
  refine ⟨by decide, by decide, by decide, ?_⟩
  have h : (roundTrip Example.os Example.handle2 Example.handle3 12 [] Example.world).2.trace
      = [ .socket 2 (.async_receive_from 2 4 2 ⟨⟨some 2⟩⟩),
          .socket 1 (.send_to [] ⟨.v4 Example.lan, 6000⟩) ] := by decide
  rw [h]
  simp

/-- C3, amended: for every payload `p` with `0 < len(p) < MaxPacketSize`, when the
peer issues `receive(handler)`, the sender sends `p` to the endpoint of
the peer (a send the platform accepts) and the datagram completes the pending
read, the run is one call of `handler` on the peer, with the local endpoint of
the sender as sender endpoint and an iterator range `[0, len(p))` whose bytes in
the receive buffer of the peer are exactly `p`. -/
theorem roundTrip_delivers (os : Platform MaxPacketSize H) (sender peer : Socket)
    (handler : H) (p : List Byte) (w : World MaxPacketSize H) (rs rp : Ref)
    (is ip : Impl MaxPacketSize H)
    (hs : sender.mpImpl.get = some rs) (hpeer : peer.mpImpl.get = some rp)
    (hls : w.heap rs = some is) (hlp : w.heap rp = some ip)
    (hacc : os.refuses is.mSocket (.send_to p (ip.mSocket.local_endpoint os)) = none)
    (hpos : 0 < p.length) (hlt : p.length < MaxPacketSize) :
    ∃ (w3 : World MaxPacketSize H) (ip3 : Impl MaxPacketSize H),
      roundTrip os sender peer handler p w =
          os.run_handler (.target handler) (is.mSocket.local_endpoint os) 0 p.length
            (w3.log (.invoke (.target handler) (is.mSocket.local_endpoint os) 0 p.length))
        ∧ w3.trace = w.trace ++
            [ .socket rp (.async_receive_from rp MaxPacketSize rp (makeAsyncSafe peer.mpImpl)),
              .socket rs (.send_to p (ip.mSocket.local_endpoint os)) ]
        ∧ w3.heap rp = some ip3
        ∧ ip3.mHandler = .target handler
        ∧ ip3.mSenderEndpoint = is.mSocket.local_endpoint os
        ∧ ip3.mReceiveBuffer.range 0 p.length = p := by
  have h1 := Socket_receive_run peer handler w rp ip hpeer hlp
  generalize hw1 : (w.store rp { ip with mHandler := .target handler }).log
    (.socket rp (.async_receive_from rp MaxPacketSize rp (makeAsyncSafe peer.mpImpl))) = w1
    at h1
  have hw1p : w1.heap rp = some { ip with mHandler := .target handler } := by
    rw [← hw1]; simp
  obtain ⟨is1, hw1s, hsock⟩ : ∃ is1 : Impl MaxPacketSize H,
      w1.heap rs = some is1 ∧ is1.mSocket = is.mSocket := by
    by_cases hne : rs = rp
    · subst hne
      rw [hls] at hlp
      cases hlp
      exact ⟨_, hw1p, rfl⟩
    · exact ⟨is, by rw [← hw1]; simp [World.store_heap_other _ _ _ _ hne, hls], rfl⟩
  have h2 := Socket_endpoint_run os peer w1 rp _ hpeer hw1p
  have h3 := Socket_endpoint_run os sender w1 rs _ hs hw1s
  rw [hsock] at h3
  have h4 := Socket_send_run os sender w1 rs is1 p p.length (ip.mSocket.local_endpoint os)
    hs hw1s hlt (by rw [hsock]; simpa using hacc)
  rw [hsock] at h4
  rw [List.take_length] at h4
  generalize hw2 : w1.log (.socket rs (.send_to p (ip.mSocket.local_endpoint os))) = w2 at h4
  have hw2p : w2.heap rp = some { ip with mHandler := .target handler } := by
    rw [← hw2]; simpa using hw1p
  have h5 := shared_ptr.deref_live peer.mpImpl w2 rp _ hpeer hw2p
  have hlen : (p.take MaxPacketSize).length = p.length := by
    simp [Nat.le_of_lt hlt]
  have hrun : roundTrip os sender peer handler p w =
      arrive os rp (makeAsyncSafe peer.mpImpl) p (is.mSocket.local_endpoint os) w2 := by
    unfold roundTrip
    rw [Exec.bind_returned _ _ _ _ _ h1, Exec.bind_returned _ _ _ _ _ h2,
      Exec.bind_returned _ _ _ _ _ h3, Exec.bind_returned _ _ _ _ _ h4,
      Exec.bind_returned _ _ _ _ _ h5]
  refine ⟨w2.store rp
      { mSocket := ip.mSocket
        mSenderEndpoint := is.mSocket.local_endpoint os
        mReceiveBuffer := ip.mReceiveBuffer.write p
        mHandler := .target handler }, _, ?_, ?_, World.store_heap_same _ _ _, rfl, rfl,
      Buffer.write_range _ _ (Nat.le_of_lt hlt)⟩
  · rw [hrun]
    simp only [arrive, hw2p, hlen, SafeAsyncHandler.call, makeAsyncSafe, weak_ptr.lock, hpeer,
      World.store_heap_same, Option.isSome_some, if_true]
    have hcall := (Impl_call_run os
      (w2.store rp
        { mSocket := ip.mSocket
          mSenderEndpoint := is.mSocket.local_endpoint os
          mReceiveBuffer := ip.mReceiveBuffer.write p
          mHandler := .target handler }) rp _ ⟨0⟩ p.length
      (World.store_heap_same _ _ _) rfl hpos (Nat.le_of_lt hlt))
    simpa [Buffer.begin] using hcall
  · rw [World.store_trace, ← hw2, ← hw1]
    simp

/-- Witness of C3, amended: the socket bound to 192.168.1.7:5000 sends the bytes
5, 6 to the peer bound to 192.168.1.7:6000, which has issued `receive(12)`. -/
theorem roundTrip_delivers_witness :
    (roundTrip Example.os Example.handle2 Example.handle3 12 [5, 6] Example.world).2.trace
      = [ .socket 2 (.async_receive_from 2 4 2 ⟨⟨some 2⟩⟩),
          .socket 1 (.send_to [5, 6] ⟨.v4 Example.lan, 6000⟩),
          .invoke (.target 12) ⟨.v4 Example.lan, 5000⟩ 0 2 ] := by
  obtain ⟨w3, ip3, hrun, htrace, _⟩ :=
    roundTrip_delivers Example.os Example.handle2 Example.handle3 (12 : Nat) [5, 6]
      Example.world 1 2 Example.impl2 Example.impl3 rfl rfl rfl rfl rfl (by decide) (by decide)
  rw [hrun]
  show (w3.log _).trace = _
  rw [World.log_trace, htrace]
  rfl

/-! ## Safe completion dispatch -/

/-- C4: the completion target `receive` registers is `makeAsyncSafe(mpImpl)`,
which holds nothing but a weak pointer to the state of the handle.  Once that
state is destroyed (by `~Impl`, or in any world without a live object at its
address) the completion target, called with any `(error, numBytes)`, returns and
leaves the world as it is: no handler call, no access to the state.  While the
state is alive the call is `Impl::operator()` on that state. -/
theorem SafeAsyncHandler_call_safe (os : Platform MaxPacketSize H) (self : Socket)
    (handler : H) (w : World MaxPacketSize H) (r : Ref) (i : Impl MaxPacketSize H)
    (error : error_code) (numBytes : Nat)
    (hp : self.mpImpl.get = some r) (hlive : w.heap r = some i) :
    (self.receive handler w).2.trace = w.trace ++
        [.socket r (.async_receive_from r MaxPacketSize r (makeAsyncSafe self.mpImpl))]
      ∧ makeAsyncSafe self.mpImpl = ⟨⟨some r⟩⟩
      ∧ ((Impl.destroy r (self.receive handler w).2).1 = .returned ()
          ∧ (Impl.destroy r (self.receive handler w).2).2.heap r = none)
      ∧ (makeAsyncSafe self.mpImpl).call os error numBytes
            (Impl.destroy r (self.receive handler w).2).2
          = (.returned (), (Impl.destroy r (self.receive handler w).2).2)
      ∧ (∀ w2 : World MaxPacketSize H, w2.heap r = none →
          (makeAsyncSafe self.mpImpl).call os error numBytes w2 = (.returned (), w2))
      ∧ (∀ w2 : World MaxPacketSize H, (w2.heap r).isSome = true →
          (makeAsyncSafe self.mpImpl).call os error numBytes w2
            = Impl.call os r error numBytes w2) := by
  have hrecv := Socket_receive_run self handler w r i hp hlive
  have hdead : ∀ w2 : World MaxPacketSize H, w2.heap r = none →
      (makeAsyncSafe self.mpImpl).call os error numBytes w2 = (.returned (), w2) := by
    intro w2 h2
    simp [SafeAsyncHandler.call, makeAsyncSafe, weak_ptr.lock, hp, h2]
  have hdestroy : (Impl.destroy r (self.receive handler w).2).1 = .returned ()
      ∧ (Impl.destroy r (self.receive handler w).2).2.heap r = none := by
    rw [hrecv]
    simp [Impl.destroy, World.free]
  refine ⟨?_, ?_, hdestroy, hdead _ hdestroy.2, hdead, ?_⟩
  · rw [hrecv]; simp
  · simp [makeAsyncSafe, hp]
  · intro w2 h2
    simp [SafeAsyncHandler.call, makeAsyncSafe, weak_ptr.lock, hp, h2]

/-- Witness of C4: `receive` on the state at address 0, its destruction, then a
completion that would otherwise reach the handler. -/
theorem SafeAsyncHandler_call_safe_witness :
    ((makeAsyncSafe Example.handle.mpImpl).call Example.os ⟨0⟩ 3
        (Impl.destroy 0 (Example.handle.receive 12 Example.world).2).2).2.trace
      = [.socket 0 (.async_receive_from 0 4 0 ⟨⟨some 0⟩⟩), .socket 0 .shutdown_both,
          .socket 0 .close] := by
  rw [(SafeAsyncHandler_call_safe Example.os Example.handle (12 : Nat) Example.world 0
    Example.impl ⟨0⟩ 3 rfl rfl).2.2.2.1]
  rfl

/-! ## Configuration: the socket state reached -/

/-- C5: when `configureMulticastSocket` returns on a handle that refers to a live
state, the group address is an IPv4 address and the socket of that state has
address reuse enabled, broadcast enabled exactly when `addr` is not loopback,
multicast loopback enabled exactly when `addr` is loopback, `addr` as outbound
interface, the group joined on interface `addr`, and is bound to 0.0.0.0 on the
port of the group endpoint; the other members of the state are unchanged.  It
returns whenever the group address is IPv4 and the platform refuses no call. -/
theorem configureMulticastSocket_state (os : Platform MaxPacketSize H) (socket : Socket)
    (addr : address_v4) (multicastEndpoint : endpoint)
    (w : World MaxPacketSize H) (r : Ref) (i : Impl MaxPacketSize H)
    (hp : socket.mpImpl.get = some r) (hlive : w.heap r = some i) :
    (∀ w1 : World MaxPacketSize H,
        configureMulticastSocket os socket addr multicastEndpoint w = (.returned (), w1) →
        ∃ (group : address_v4) (i1 : Impl MaxPacketSize H),
          multicastEndpoint.address = .v4 group
          ∧ w1.heap r = some i1
          ∧ i1 =
              { i with mSocket :=
                  { reuse_address := true
                    broadcast := !addr.is_loopback
                    enable_loopback := addr.is_loopback
                    outbound_interface := some addr
                    groups := i.mSocket.groups ++ [(group, addr)]
                    bound := some ⟨.v4 ⟨0⟩, multicastEndpoint.port⟩ } }
          ∧ (i1.mSocket.broadcast = true ↔ addr.is_loopback = false)
          ∧ (i1.mSocket.enable_loopback = true ↔ addr.is_loopback = true)
          ∧ (addr.is_loopback = false →
              i1.mSocket.broadcast = true ∧ i1.mSocket.enable_loopback = false)
          ∧ (addr.is_loopback = true →
              i1.mSocket.enable_loopback = true ∧ i1.mSocket.broadcast = false))
      ∧ (∀ group : address_v4, multicastEndpoint.address = .v4 group →
          (∀ (s : udp_socket) (c : SocketCall), os.refuses s c = none) →
          (configureMulticastSocket os socket addr multicastEndpoint w).1 = .returned ()) := by
  obtain ⟨k, s2, hk, htrace, hheap, hout⟩ :=
    perform_run os socket.mpImpl r hp (multicastSteps addr multicastEndpoint) w i hlive
  refine ⟨?_, ?_⟩
  · intro w1 hrun
    cases haddr : multicastEndpoint.address with
    | v4 group =>
      rw [configureMulticastSocket_eq_perform os socket addr multicastEndpoint group haddr]
        at hrun
      rw [hrun] at hout hheap
      rcases hout with ⟨_, _, h3⟩ | ⟨code, c, h1, _⟩
      · refine ⟨group, _, rfl, hheap, ?_, ?_, ?_, ?_, ?_⟩
        · rw [h3]
          simp [multicastSteps, multicastSetup, haddr, address.to_v4, udp_socket.after,
            udp_socket.apply, udp_socket.bindTo, address.any]
        all_goals
          rw [h3]
          simp [multicastSteps, multicastSetup, haddr, address.to_v4, udp_socket.after,
            udp_socket.apply, udp_socket.bindTo]
      · cases h1
    | v6 a =>
      rw [configureMulticastSocket_eq_perform_v6 os socket addr multicastEndpoint a haddr]
        at hrun
      exfalso
      rcases hpf : perform os socket.mpImpl (multicastSteps addr multicastEndpoint) w
        with ⟨o, w2⟩
      cases o <;> simp [Exec.bind, hpf, Exec.stop] at hrun
  · intro group hv4 hacc
    rw [configureMulticastSocket_eq_perform os socket addr multicastEndpoint group hv4]
    rcases hout with ⟨h1, _⟩ | ⟨code, c, _, _, _, _, h5⟩
    · exact h1
    · rw [hacc] at h5; cases h5

/-- Witness of C5: interface 192.168.1.7 (not loopback) and the group
224.76.78.75:20808 on the state at address 0. -/
theorem configureMulticastSocket_state_witness :
    (configureMulticastSocket Example.os Example.handle Example.lan Example.group
        Example.world).1 = .returned ()
      ∧ ((configureMulticastSocket Example.os Example.handle Example.lan Example.group
          Example.world).2.heap 0).map (fun i => i.mSocket)
          = some ⟨true, true, false, some Example.lan, [(⟨0xE04C4E4B⟩, Example.lan)],
              some ⟨.v4 ⟨0⟩, 20808⟩⟩ := by
  have h := configureMulticastSocket_state Example.os Example.handle Example.lan Example.group
    Example.world 0 Example.impl rfl rfl
  refine ⟨h.2 ⟨0xE04C4E4B⟩ rfl (fun _ _ => rfl), ?_⟩
  obtain ⟨g, i1, hg, hheap, hi1, _⟩ := h.1 (configureMulticastSocket Example.os Example.handle
    Example.lan Example.group Example.world).2 rfl
  cases hg
  rw [hheap, hi1]
  rfl

/-- C6: on a handle that refers to a live state, `configureUnicastSocket` makes
no call on the socket other than, in this order, set enable_loopback to
`addr.is_loopback()`, set outbound_interface to `addr`, and bind to `(addr, 0)`;
a failing call ends it.  When it returns, all three were made, the options
reuse_address and broadcast and the joined groups are as before, and on a
platform that answers a bind to port 0 with a nonzero port `Socket::endpoint`
returns the address `addr` and that nonzero port.  It returns whenever the
platform refuses no call. -/
theorem configureUnicastSocket_contract (os : Platform MaxPacketSize H) (socket : Socket)
    (addr : address_v4) (w : World MaxPacketSize H) (r : Ref) (i : Impl MaxPacketSize H)
    (hp : socket.mpImpl.get = some r) (hlive : w.heap r = some i)
    (hport : os.ephemeral_port ≠ 0) :
    (∃ k : Nat, k ≤ 3
        ∧ (configureUnicastSocket os socket addr w).2.trace = w.trace ++
            ([ .set_option (.enable_loopback addr.is_loopback),
               .set_option (.outbound_interface addr),
               .bind ⟨.v4 addr, 0⟩ ].take k).map (Effect.socket r))
      ∧ (∀ w1 : World MaxPacketSize H,
          configureUnicastSocket os socket addr w = (.returned (), w1) →
          w1.trace = w.trace ++
              [ .socket r (.set_option (.enable_loopback addr.is_loopback)),
                .socket r (.set_option (.outbound_interface addr)),
                .socket r (.bind ⟨.v4 addr, 0⟩) ]
            ∧ w1.heap r = some
                { i with mSocket :=
                    { reuse_address := i.mSocket.reuse_address
                      broadcast := i.mSocket.broadcast
                      enable_loopback := addr.is_loopback
                      outbound_interface := some addr
                      groups := i.mSocket.groups
                      bound := some ⟨.v4 addr, 0⟩ } }
            ∧ socket.endpoint os w1 = (.returned ⟨.v4 addr, os.ephemeral_port⟩, w1)
            ∧ (∃ e : endpoint, (socket.endpoint os w1).1 = .returned e
                ∧ e.address = .v4 addr ∧ e.port ≠ 0))
      ∧ ((∀ (s : udp_socket) (c : SocketCall), os.refuses s c = none) →
          (configureUnicastSocket os socket addr w).1 = .returned ()) := by
  obtain ⟨k, s2, hk, htrace, hheap, hout⟩ :=
    perform_run os socket.mpImpl r hp (unicastSteps addr) w i hlive
  rw [← configureUnicastSocket_eq_perform os socket addr] at htrace hheap hout
  refine ⟨⟨k, hk, htrace⟩, ?_, ?_⟩
  · intro w1 hrun
    rw [hrun] at htrace hheap hout
    rcases hout with ⟨_, h2, h3⟩ | ⟨code, c, h1, _⟩
    · have hstate : w1.heap r = some
          { i with mSocket :=
              { reuse_address := i.mSocket.reuse_address
                broadcast := i.mSocket.broadcast
                enable_loopback := addr.is_loopback
                outbound_interface := some addr
                groups := i.mSocket.groups
                bound := some ⟨.v4 addr, 0⟩ } } := by
        rw [hheap, h3]
        simp [unicastSteps, udp_socket.after, udp_socket.apply, udp_socket.bindTo]
      have hend : socket.endpoint os w1 = (.returned ⟨.v4 addr, os.ephemeral_port⟩, w1) := by
        show Exec.bind _ _ w1 = _
        simp [Exec.bind, shared_ptr.deref_live socket.mpImpl w1 r _ hp hstate,
          udp_socket.local_endpoint, Pure.pure, Exec.pure]
      refine ⟨?_, hstate, hend, ⟨.v4 addr, os.ephemeral_port⟩, by rw [hend], rfl, hport⟩
      rw [htrace, h2, List.take_length]
      rfl
    · cases h1
  · intro hacc
    rcases hout with ⟨h1, _⟩ | ⟨code, c, _, _, _, _, h5⟩
    · exact h1
    · rw [hacc] at h5; cases h5

/-- Witness of C6: interface 192.168.1.7 on the state at address 0, on a platform
that hands out port 49152. -/
theorem configureUnicastSocket_contract_witness :
    (configureUnicastSocket Example.os Example.handle Example.lan Example.world).1
        = .returned ()
      ∧ (Example.handle.endpoint Example.os
          (configureUnicastSocket Example.os Example.handle Example.lan Example.world).2).1
          = .returned ⟨.v4 Example.lan, 49152⟩ := by
  have h := configureUnicastSocket_contract Example.os Example.handle Example.lan
    Example.world 0 Example.impl rfl rfl (by decide)
  refine ⟨h.2.2 (fun _ _ => rfl), ?_⟩
  rw [(h.2.1 (configureUnicastSocket Example.os Example.handle Example.lan
    Example.world).2 rfl).2.2.1]
  rfl

/-! ## The handle: `send`, `receive`, construction and move -/

/-- C7: on a handle that refers to a live state, `send` stops at the assertion
exactly when `numBytes < MaxPacketSize` fails (so `MaxPacketSize` itself is
rejected, and 0 is accepted by every socket with a non-empty buffer), and then
nothing was sent.  When the assertion holds, `send` makes exactly one `send_to`
call with the first `numBytes` bytes of `pData` and the endpoint `dest`, and
returns the count the platform reports for it unchanged (or passes on the
`system_error` of that call); the heap, and with it handler, receive buffer and
sender endpoint, is not modified. -/
theorem Socket_send_contract (os : Platform MaxPacketSize H) (self : Socket)
    (w : World MaxPacketSize H) (r : Ref) (i : Impl MaxPacketSize H)
    (pData : List Byte) (numBytes : Nat) (dest : endpoint)
    (hp : self.mpImpl.get = some r) (hlive : w.heap r = some i) :
    ((self.send os pData numBytes dest w).1 = .stopped .assertion_failed
        ↔ ¬ numBytes < MaxPacketSize)
      ∧ (¬ numBytes < MaxPacketSize →
          self.send os pData numBytes dest w = (.stopped .assertion_failed, w))
      ∧ (self.send os pData MaxPacketSize dest w).1 = .stopped .assertion_failed
      ∧ (0 < MaxPacketSize →
          (self.send os pData 0 dest w).1 ≠ .stopped .assertion_failed)
      ∧ (numBytes < MaxPacketSize →
          (self.send os pData numBytes dest w).2
              = w.log (.socket r (.send_to (pData.take numBytes) dest))
            ∧ (self.send os pData numBytes dest w).2.heap = w.heap
            ∧ (self.send os pData numBytes dest w).1 =
                match os.refuses i.mSocket (.send_to (pData.take numBytes) dest) with
                | some code => .stopped (.exception (.system_error code))
                | none => .returned (os.sent i.mSocket (pData.take numBytes) dest)) := by
  have hsend : ∀ n : Nat, self.send os pData n dest w =
      if n < MaxPacketSize then
        udp_socket.send_to os self.mpImpl (pData.take n) dest w
      else (.stopped .assertion_failed, w) := by
    intro n
    show Exec.bind _ _ w = _
    by_cases hn : n < MaxPacketSize <;>
      simp [Exec.bind, assert, Exec.pure, Exec.stop, hn]
  have hto : ∀ n : Nat, udp_socket.send_to os self.mpImpl (pData.take n) dest w =
      (match os.refuses i.mSocket (.send_to (pData.take n) dest) with
        | some code => .stopped (.exception (.system_error code))
        | none => .returned (os.sent i.mSocket (pData.take n) dest),
       w.log (.socket r (.send_to (pData.take n) dest))) := by
    intro n
    simp only [udp_socket.send_to, shared_ptr.deref_live self.mpImpl w r i hp hlive]
    cases os.refuses i.mSocket (.send_to (pData.take n) dest) <;> rfl
  have hne : ∀ n : Nat, (udp_socket.send_to os self.mpImpl (pData.take n) dest w).1
      ≠ .stopped .assertion_failed := by
    intro n
    rw [hto n]
    cases os.refuses i.mSocket (.send_to (pData.take n) dest) <;> simp
  refine ⟨?_, ?_, ?_, ?_, ?_⟩
  · rw [hsend numBytes]
    by_cases hn : numBytes < MaxPacketSize
    · simp [hn, hne numBytes]
    · simp [hn]
  · intro hn
    rw [hsend numBytes]
    simp [hn]
  · rw [hsend MaxPacketSize]
    simp
  · intro h0
    rw [hsend 0]
    simp only [h0, if_true]
    exact hne 0
  · intro hn
    rw [hsend numBytes]
    simp only [hn, if_true]
    rw [hto numBytes]
    exact ⟨rfl, rfl, rfl⟩

/-- Witness of C7: the handle of the state at address 1 sends two of three bytes. -/
theorem Socket_send_contract_witness :
    (Example.handle2.send Example.os [1, 2, 3] 2 Example.group Example.world).1 = .returned 2
      ∧ (Example.handle2.send Example.os [1, 2, 3] 2 Example.group Example.world).2.trace
          = [.socket 1 (.send_to [1, 2] Example.group)] := by
  have h := (Socket_send_contract Example.os Example.handle2 Example.world 1 Example.impl2
    [1, 2, 3] 2 Example.group rfl rfl).2.2.2.2 (by decide)
  refine ⟨?_, ?_⟩
  · rw [h.2.2]; rfl
  · rw [h.1]; rfl

/-- C8: on a handle that refers to a live state, whatever handler that state
holds, `receive` returns normally, the state then holds the new handler in place
of the old one, exactly one effect is recorded, the read request
`async_receive_from` on the receive buffer of that state with capacity
`MaxPacketSize`, its sender slot and the weak completion target, so the handler
is not called; socket, receive buffer and sender endpoint are unchanged. -/
theorem Socket_receive_contract (self : Socket) (handler : H)
    (w : World MaxPacketSize H) (r : Ref) (i : Impl MaxPacketSize H)
    (hp : self.mpImpl.get = some r) (hlive : w.heap r = some i) :
    self.receive handler w =
      (.returned (),
        (w.store r { i with mHandler := .target handler }).log
          (.socket r (.async_receive_from r MaxPacketSize r (makeAsyncSafe self.mpImpl))))
      ∧ (self.receive handler w).2.heap r =
          some ⟨i.mSocket, i.mSenderEndpoint, i.mReceiveBuffer, .target handler⟩
      ∧ (self.receive handler w).2.trace = w.trace ++
          [.socket r (.async_receive_from r MaxPacketSize r ⟨⟨some r⟩⟩)] := by
  have h := Socket_receive_run self handler w r i hp hlive
  refine ⟨h, ?_, ?_⟩
  · rw [h]; simp
  · rw [h]; simp [makeAsyncSafe, hp]

/-- Witness of C8: a second `receive` on the state at address 0, which already
holds handler 11. -/
theorem Socket_receive_contract_witness :
    (Example.handle.receive 12 Example.world).1 = .returned ()
      ∧ ((Example.handle.receive 12 Example.world).2.heap 0).map (fun i => i.mHandler)
          = some (.target 12)
      ∧ (Example.handle.receive 12 Example.world).2.trace
          = [.socket 0 (.async_receive_from 0 4 0 ⟨⟨some 0⟩⟩)] := by
  have h := Socket_receive_contract Example.handle (12 : Nat) Example.world 0 Example.impl
    rfl rfl
  refine ⟨?_, ?_, ?_⟩
  · rw [h.1]
  · rw [h.2.1]; rfl
  · rw [h.2.2]; rfl

/-- C10: `configureMulticastSocket` on a handle that refers to a live state
records a prefix of the six operations set reuse_address, set broadcast, set
enable_loopback, set outbound_interface, bind, set join_group, in this order (the
four options before the bind, the join after it).  When it returns, all six were
performed; when it stops, the last operation recorded is the one the platform
refused and its `system_error` is the outcome, or the five operations before the
join were performed and the conversion of the group address raised `bad_cast`;
nothing is performed after the failing step.  On a platform that refuses nothing
and with an IPv4 group address it returns after exactly the six operations. -/
theorem configureMulticastSocket_order (os : Platform MaxPacketSize H) (socket : Socket)
    (addr : address_v4) (multicastEndpoint : endpoint)
    (w : World MaxPacketSize H) (r : Ref) (i : Impl MaxPacketSize H)
    (hp : socket.mpImpl.get = some r) (hlive : w.heap r = some i) :
    (∀ group : address_v4, multicastEndpoint.address = .v4 group →
        multicastSteps addr multicastEndpoint =
          [ .set_option (.reuse_address true),
            .set_option (.broadcast (!addr.is_loopback)),
            .set_option (.enable_loopback addr.is_loopback),
            .set_option (.outbound_interface addr),
            .bind ⟨address.any, multicastEndpoint.port⟩,
            .set_option (.join_group group addr) ])
      ∧ (∃ k : Nat, k ≤ (multicastSteps addr multicastEndpoint).length
          ∧ (configureMulticastSocket os socket addr multicastEndpoint w).2.trace =
              w.trace ++ ((multicastSteps addr multicastEndpoint).take k).map (Effect.socket r)
          ∧ ((configureMulticastSocket os socket addr multicastEndpoint w).1 = .returned () →
              k = 6 ∧ (multicastSteps addr multicastEndpoint).length = 6)
          ∧ (∀ why : Stop,
              (configureMulticastSocket os socket addr multicastEndpoint w).1 = .stopped why →
              (∃ (code : Nat) (c : SocketCall) (i2 : Impl MaxPacketSize H),
                  why = .exception (.system_error code) ∧ 0 < k
                  ∧ (multicastSteps addr multicastEndpoint).get? (k - 1) = some c
                  ∧ (configureMulticastSocket os socket addr multicastEndpoint w).2.heap r
                      = some i2
                  ∧ os.refuses i2.mSocket c = some code)
              ∨ (why = .exception .bad_cast ∧ k = 5
                  ∧ multicastEndpoint.address.to_v4 = .error .bad_cast)))
      ∧ (∀ group : address_v4, multicastEndpoint.address = .v4 group →
          (∀ (s : udp_socket) (c : SocketCall), os.refuses s c = none) →
          (configureMulticastSocket os socket addr multicastEndpoint w).1 = .returned ()
            ∧ (configureMulticastSocket os socket addr multicastEndpoint w).2.trace =
                w.trace ++
                  [ .socket r (.set_option (.reuse_address true)),
                    .socket r (.set_option (.broadcast (!addr.is_loopback))),
                    .socket r (.set_option (.enable_loopback addr.is_loopback)),
                    .socket r (.set_option (.outbound_interface addr)),
                    .socket r (.bind ⟨address.any, multicastEndpoint.port⟩),
                    .socket r (.set_option (.join_group group addr)) ]) := by
  have hsteps : ∀ group : address_v4, multicastEndpoint.address = .v4 group →
      multicastSteps addr multicastEndpoint =
        [ .set_option (.reuse_address true),
          .set_option (.broadcast (!addr.is_loopback)),
          .set_option (.enable_loopback addr.is_loopback),
          .set_option (.outbound_interface addr),
          .bind ⟨address.any, multicastEndpoint.port⟩,
          .set_option (.join_group group addr) ] := by
    intro group hv4
    simp [multicastSteps, multicastSetup, hv4, address.to_v4]
  obtain ⟨k, s2, hk, htrace, hheap, hout⟩ :=
    perform_run os socket.mpImpl r hp (multicastSteps addr multicastEndpoint) w i hlive
  refine ⟨hsteps, ?_, ?_⟩
  · cases haddr : multicastEndpoint.address with
    | v4 group =>
      have heq := configureMulticastSocket_eq_perform os socket addr multicastEndpoint group haddr
      have hlen : (multicastSteps addr multicastEndpoint).length = 6 := by
        rw [hsteps group haddr]; rfl
      refine ⟨k, hk, by rw [heq]; exact htrace, ?_, ?_⟩
      · intro hret
        rw [heq] at hret
        rcases hout with ⟨_, h2, _⟩ | ⟨code, c, h1, _⟩
        · exact ⟨by rw [h2, hlen], hlen⟩
        · rw [h1] at hret; cases hret
      · intro why hwhy
        rw [heq] at hwhy
        rcases hout with ⟨h1, _⟩ | ⟨code, c, h1, h2, h3, _, h5⟩
        · rw [h1] at hwhy; cases hwhy
        · rw [h1] at hwhy
          injection hwhy with hwhy
          exact Or.inl ⟨code, c, _, hwhy.symm, h2, h3, by rw [heq]; exact hheap, h5⟩
    | v6 a =>
      have heq := configureMulticastSocket_eq_perform_v6 os socket addr multicastEndpoint a haddr
      have hlen : (multicastSteps addr multicastEndpoint).length = 5 := by
        simp [multicastSteps, multicastSetup, haddr, address.to_v4]
      rcases hout with ⟨h1, h2, _⟩ | ⟨code, c, h1, h2, h3, _, h5⟩
      · have hrun : configureMulticastSocket os socket addr multicastEndpoint w =
            (.stopped (.exception .bad_cast),
              (perform os socket.mpImpl (multicastSteps addr multicastEndpoint) w).2) := by
          rw [heq]
          rcases hpf : perform os socket.mpImpl (multicastSteps addr multicastEndpoint) w
            with ⟨o, w1⟩
          rw [hpf] at h1
          simp only at h1
          subst h1
          simp [Exec.bind, hpf, Exec.stop]
        refine ⟨k, hk, by rw [hrun]; exact htrace, ?_, ?_⟩
        · intro hret
          rw [hrun] at hret; cases hret
        · intro why hwhy
          rw [hrun] at hwhy
          injection hwhy with hwhy
          exact Or.inr ⟨hwhy.symm, by rw [h2, hlen], by simp [address.to_v4]⟩
      · have hrun : configureMulticastSocket os socket addr multicastEndpoint w =
            (.stopped (.exception (.system_error code)),
              (perform os socket.mpImpl (multicastSteps addr multicastEndpoint) w).2) := by
          rw [heq]
          rcases hpf : perform os socket.mpImpl (multicastSteps addr multicastEndpoint) w
            with ⟨o, w1⟩
          rw [hpf] at h1
          simp only at h1
          subst h1
          simp [Exec.bind, hpf]
        refine ⟨k, hk, by rw [hrun]; exact htrace, ?_, ?_⟩
        · intro hret
          rw [hrun] at hret; cases hret
        · intro why hwhy
          rw [hrun] at hwhy
          injection hwhy with hwhy
          exact Or.inl ⟨code, c, _, hwhy.symm, h2, h3, by rw [hrun]; exact hheap, h5⟩
  · intro group hv4 hacc
    have heq := configureMulticastSocket_eq_perform os socket addr multicastEndpoint group hv4
    rcases hout with ⟨h1, h2, _⟩ | ⟨code, c, _, _, _, _, h5⟩
    · refine ⟨by rw [heq]; exact h1, ?_⟩
      rw [heq, htrace, h2, List.take_length, hsteps group hv4]
      rfl
    · rw [hacc] at h5; cases h5

/-- Witness of C10: the state at address 0, interface 192.168.1.7 and the group
224.76.78.75:20808 on a platform that refuses nothing. -/
theorem configureMulticastSocket_order_witness :
    (configureMulticastSocket Example.os Example.handle Example.lan Example.group
        Example.world).1 = .returned ()
      ∧ (configureMulticastSocket Example.os Example.handle Example.lan Example.group
          Example.world).2.trace =
          [ .socket 0 (.set_option (.reuse_address true)),
            .socket 0 (.set_option (.broadcast true)),
            .socket 0 (.set_option (.enable_loopback false)),
            .socket 0 (.set_option (.outbound_interface Example.lan)),
            .socket 0 (.bind ⟨address.any, 20808⟩),
            .socket 0 (.set_option (.join_group ⟨0xE04C4E4B⟩ Example.lan)) ] :=
  (configureMulticastSocket_order Example.os Example.handle Example.lan Example.group
    Example.world 0 Example.impl rfl rfl).2.2 ⟨0xE04C4E4B⟩ rfl (fun _ _ => rfl)

end ableton.discovery
